import Mathlib

/-!
Verification of the rust-project test fixture: a single `Config` record
(`name : String`, `version : u32`) constructed with literal values,
rendered with the derived `Debug` formatter, and printed to standard
output with a fixed label. The serde `Serialize`/`Deserialize` derives
declare a latent map-encoding capability that the visible control flow
never exercises; that capability is modelled from the specification.
-/

/-- The record type from `src/test-projects/rust-project/src/main.rs`:
`struct Config \x7b name: String, version: u32 \x7d`. The `u32` field is
embedded as `Nat`; where the 32-bit bound matters it appears as an
explicit `< 2 ^ 32` condition. -/
structure Config where
  name : String
  version : Nat
deriving DecidableEq, Repr

/-- The unsigned 32-bit type boundary: the values a Rust `u32` can hold. -/
def isU32 (n : Nat) : Prop := n < 4294967296

instance (n : Nat) : Decidable (isU32 n) := by
  unfold isU32; infer_instance

/-- Escaping of one character as done by the Rust standard library when
formatting a `String` with the derived `Debug` (the `escape_debug`
rendering restricted to the escapes relevant to ASCII text). -/
def escapeDebugChar (c : Char) : String :=
  if c = '\t' then "\\t"
  else if c = '\n' then "\\n"
  else if c = '\r' then "\\r"
  else if c = '\\' then "\\\\"
  else if c = '"' then "\\\""
  else String.singleton c

/-- Escaping of a whole string, character by character. -/
def escapeDebugString (s : String) : String :=
  s.data.foldl (fun acc c => acc ++ escapeDebugChar c) ""

/-- Debug rendering of a `String` value: the escaped text enclosed in
double quotes, as Rust's `Debug for String` produces. -/
def debugString (s : String) : String :=
  "\"" ++ escapeDebugString s ++ "\""

/-- Rendering of a named-field list, separated by a comma and a space,
as Rust's `Formatter::debug_struct` builder emits in non-alternate mode. -/
def fmtFields : List (String × String) → String
  | [] => ""
  | [(k, v)] => k ++ ": " ++ v
  | (k, v) :: rest => k ++ ": " ++ v ++ ", " ++ fmtFields rest

/-- Rendering of a braced struct: type name, then the fields between
braces padded with single spaces (non-alternate `Debug` format). -/
def fmtStruct (tyName : String) (fields : List (String × String)) : String :=
  if fields.isEmpty then tyName
  else tyName ++ " \x7b " ++ fmtFields fields ++ " \x7d"

/-- The derived `Debug` rendering of `Config`: the struct builder applied
to the two fields in declaration order, `name` (a `String`, rendered
quoted) then `version` (a `u32`, rendered as bare digits). -/
def Config.fmtDebug (c : Config) : String :=
  fmtStruct "Config" [("name", debugString c.name), ("version", toString c.version)]

/-- An observable effect of the process. The program only ever writes to
standard output; the other constructors exist so that their absence is a
statement about the code, not about the model. -/
inductive Effect where
  | writeStdout (s : String)
  | writeStderr (s : String)
  | writeFile (path : String) (contents : String)
  | netSend (data : String)
deriving DecidableEq, Repr

/-- The observable result of one process run: the ordered trace of
effects it performed and its exit status. -/
structure ProcResult where
  trace : List Effect
  exitCode : Nat
deriving DecidableEq, Repr

/-- `fn main()` of the fixture, embedded as a function of the process
inputs it could in principle observe (command-line arguments and the
environment). The body mirrors the source: construct
`Config \x7b name: "test", version: 1 \x7d`, format it with `Debug`, and
print it once with the fixed label and a trailing newline; neither
parameter is read, and the process exits successfully. -/
def run (args : List String) (env : List (String × String)) : ProcResult :=
  let config : Config := { name := "test", version := 1 }
  { trace := [Effect.writeStdout ("test rust project: " ++ config.fmtDebug ++ "\n")]
    exitCode := 0 }

/-- Everything a run wrote to standard output, in order. -/
def stdoutOf (r : ProcResult) : String :=
  r.trace.foldl
    (fun acc e => match e with
      | Effect.writeStdout s => acc ++ s
      | _ => acc) ""

/-- Everything a run wrote to the error stream, in order. -/
def stderrOf (r : ProcResult) : String :=
  r.trace.foldl
    (fun acc e => match e with
      | Effect.writeStderr s => acc ++ s
      | _ => acc) ""

/-- The filesystem writes a run performed. -/
def fsWritesOf (r : ProcResult) : List (String × String) :=
  r.trace.foldr
    (fun e acc => match e with
      | Effect.writeFile p s => (p, s) :: acc
      | _ => acc) []

/-- The network sends a run performed. -/
def netOpsOf (r : ProcResult) : List String :=
  r.trace.foldr
    (fun e acc => match e with
      | Effect.netSend d => d :: acc
      | _ => acc) []

/-- A value of the map-like structured format the serde derives target
(the fragment of it the `Config` schema can touch): a text string or an
integer. -/
inductive Value where
  | str (s : String)
  | int (n : Int)
deriving DecidableEq, Repr

/-- A mapping from string keys to values, in insertion order. -/
def Mapping : Type := List (String × Value)

/-- First value bound to `k` in the mapping, if any. -/
def lookupKey : List (String × Value) → String → Option Value
  | [], _ => none
  | (k', v) :: rest, k => if k' = k then some v else lookupKey rest k

/-- `v` is the encoding of the unsigned 32-bit integer `n`: an integer
value inside the `u32` type boundary. -/
def representsU32 (v : Value) (n : Nat) : Prop :=
  v = Value.int (n : Int) ∧ isU32 n

/-- Modelled from the spec: the latent `Serialize` derive on `Config`,
not present under `src/` (only the derive attribute is). Per the spec,
encoding produces "a mapping with keys `name` (string) and `version`
(integer)". -/
def Config.encode (c : Config) : List (String × Value) :=
  [("name", Value.str c.name), ("version", Value.int (c.version : Int))]

/-- The one error kind of the decoding path. -/
inductive DecodeError where
  | malformedData
deriving DecidableEq, Repr

/-- Modelled from the spec: reading a `u32` field out of a decoded value,
as the latent `Deserialize` derive does. Only an integer inside the
unsigned 32-bit type boundary is accepted; anything else (a string, a
negative integer, an integer `≥ 2 ^ 32`) is not representable. -/
def decodeU32 : Value → Option Nat
  | Value.int n => if 0 ≤ n ∧ n < 4294967296 then some n.toNat else none
  | Value.str _ => none

/-- Modelled from the spec: the latent `Deserialize` derive on `Config`,
not present under `src/`. Decoding reads the `"name"` key (which must
hold a string) and the `"version"` key (which must hold an integer
representable as `u32`); a missing key or an unrepresentable value is
`MalformedData`, returned to the caller as a recoverable result. Keys
other than `"name"` and `"version"` are never inspected, matching the
derived decoder's default of ignoring unknown fields. -/
def Config.decodeMap (entries : List (String × Value)) : Except DecodeError Config :=
  match lookupKey entries "name" with
  | some (Value.str s) =>
    match lookupKey entries "version" with
    | some v =>
      match decodeU32 v with
      | some ver => Except.ok { name := s, version := ver }
      | none => Except.error DecodeError.malformedData
    | none => Except.error DecodeError.malformedData
  | some (Value.int _) => Except.error DecodeError.malformedData
  | none => Except.error DecodeError.malformedData

/-- The condition claim C6 states for decode failure: a missing `name`
key, a missing `version` key, or a `version` value not representable as
an unsigned 32-bit integer. -/
def claimedFailCond (entries : List (String × Value)) : Prop :=
  lookupKey entries "name" = none ∨ lookupKey entries "version" = none ∨
  (∃ v, lookupKey entries "version" = some v ∧ ¬ ∃ n, representsU32 v n)

/-- The states of the straight-line execution of `main`: initial, record
constructed, debug line formatted, effects emitted and exit status set. -/
inductive MainState where
  | start
  | constructed (c : Config)
  | formatted (c : Config) (line : String)
  | finished (trace : List Effect) (exitCode : Nat)
deriving DecidableEq, Repr

/-- One execution step of `main`. The terminal state has no successor;
every other state has exactly one, mirroring the loop-free,
recursion-free, suspension-free body of the source. -/
def step : MainState → Option MainState
  | MainState.start =>
    some (MainState.constructed { name := "test", version := 1 })
  | MainState.constructed c =>
    some (MainState.formatted c ("test rust project: " ++ c.fmtDebug ++ "\n"))
  | MainState.formatted _ line =>
    some (MainState.finished [Effect.writeStdout line] 0)
  | MainState.finished _ _ => none

/-- Iterate `step` up to `n` times, stopping at a terminal state. -/
def stepN : Nat → MainState → MainState
  | 0, s => s
  | n + 1, s =>
    match step s with
    | some t => stepN n t
    | none => s

/-- A state with no successor. -/
def isTerminal (s : MainState) : Bool :=
  (step s).isNone

/-- `decodeU32` succeeds with `n` exactly on the encoding of the
unsigned 32-bit integer `n`. -/
theorem decodeU32_iff (v : Value) (n : Nat) :
    decodeU32 v = some n ↔ representsU32 v n := by
  cases v with
  | str s => simp [decodeU32, representsU32]
  | int m =>
    simp only [decodeU32]
    unfold representsU32 isU32
    simp only [Value.int.injEq]
    split_ifs with h
    · simp only [Option.some.injEq]
      constructor
      · rintro rfl
        constructor <;> omega
      · rintro ⟨rfl, hn⟩
        omega
    · constructor
      · intro hcontra
        exact hcontra.elim
      · rintro ⟨rfl, hn⟩
        exact absurd ⟨by omega, by omega⟩ h

/-- `decodeU32` fails exactly when the value encodes no unsigned 32-bit
integer. -/
theorem decodeU32_eq_none_iff (v : Value) :
    decodeU32 v = none ↔ ¬ ∃ n, representsU32 v n := by
  constructor
  · rintro h ⟨n, hn⟩
    rw [← decodeU32_iff] at hn
    rw [h] at hn
    exact absurd hn (by simp)
  · intro h
    cases hd : decodeU32 v with
    | none => rfl
    | some n => exact absurd ⟨n, (decodeU32_iff v n).mp hd⟩ h

/-- Decoding with no `name` key fails. -/
theorem decodeMap_name_none (entries : List (String × Value))
    (h : lookupKey entries "name" = none) :
    Config.decodeMap entries = Except.error DecodeError.malformedData := by
  unfold Config.decodeMap
  rw [h]

/-- Decoding with a non-string `name` value fails. -/
theorem decodeMap_name_int (entries : List (String × Value)) (m : Int)
    (h : lookupKey entries "name" = some (Value.int m)) :
    Config.decodeMap entries = Except.error DecodeError.malformedData := by
  unfold Config.decodeMap
  rw [h]

/-- Decoding with a string `name` but no `version` key fails. -/
theorem decodeMap_ver_none (entries : List (String × Value)) (s : String)
    (hname : lookupKey entries "name" = some (Value.str s))
    (hver : lookupKey entries "version" = none) :
    Config.decodeMap entries = Except.error DecodeError.malformedData := by
  unfold Config.decodeMap
  rw [hname, hver]

/-- With a string `name` and a present `version` value, decoding reduces
to reading the `version` value as a `u32`. -/
theorem decodeMap_of_lookups (entries : List (String × Value)) (s : String) (w : Value)
    (hname : lookupKey entries "name" = some (Value.str s))
    (hver : lookupKey entries "version" = some w) :
    Config.decodeMap entries =
      (match decodeU32 w with
        | some ver => Except.ok { name := s, version := ver }
        | none => Except.error DecodeError.malformedData) := by
  unfold Config.decodeMap
  rw [hname, hver]

/-- C1. Running the program with no inputs writes to standard output
exactly the line `test rust project: Config \x7b name: "test", version: 1 \x7d`
followed by one line break and nothing else, and the debug rendering of
`Config \x7b name: "test", version: 1 \x7d` is exactly
`Config \x7b name: "test", version: 1 \x7d`. -/
theorem main_output_exact :
    stdoutOf (run [] []) =
      "test rust project: Config \x7b name: \"test\", version: 1 \x7d\n" ∧
    (run [] []).trace =
      [Effect.writeStdout
        "test rust project: Config \x7b name: \"test\", version: 1 \x7d\n"] ∧
    Config.fmtDebug { name := "test", version := 1 } =
      "Config \x7b name: \"test\", version: 1 \x7d" := by
  refine ⟨?_, ?_, ?_⟩ <;> rfl

/-- C2. For every pair of a string `name` and an unsigned 32-bit integer
`version`, encoding `Config` with the declared serialization capability
and then decoding the result yields a `Config` equal to the original in
both fields. -/
theorem config_roundtrip (name : String) (ver : Nat) (h : ver < 4294967296) :
    Config.decodeMap (Config.encode { name := name, version := ver }) =
      Except.ok { name := name, version := ver } := by
  have hdec : decodeU32 (Value.int (ver : Int)) = some ver :=
    (decodeU32_iff _ _).mpr ⟨rfl, h⟩
  rw [decodeMap_of_lookups (Config.encode { name := name, version := ver })
        name (Value.int (ver : Int)) rfl rfl, hdec]

/-- Witness for C2 at the concrete pair from the source literal. -/
theorem config_roundtrip_witness :
    1 < 4294967296 ∧
    Config.decodeMap (Config.encode { name := "test", version := 1 }) =
      Except.ok { name := "test", version := 1 } :=
  ⟨by decide, config_roundtrip "test" 1 (by decide)⟩

/-- C3. The debug rendering of any `Config` lists the fields in
declaration order, `name` first and `version` second, with the string
field's value enclosed in double quotes and the numeric field's value
rendered unquoted. -/
theorem debug_format_fields (c : Config) :
    c.fmtDebug =
      "Config \x7b name: \"" ++
          (escapeDebugString c.name ++ "\"" ++ ", " ++
            ("version: " ++ toString c.version)) ++
        " \x7d" := rfl

/-- C4. Running the program, whatever the arguments and environment,
terminates with exit status 0; no other exit code occurs. -/
theorem exit_code_zero (args : List String) (env : List (String × String)) :
    (run args env).exitCode = 0 := rfl

/-- C5. The boundary versions 0 and 4294967295 both encode and then
decode without error; 4294967296 lies outside the unsigned 32-bit type
boundary, and both it and negative values are rejected in decoding
exactly by that representability boundary (`decodeU32` succeeds
precisely on encodings of integers inside the `u32` range). -/
theorem version_boundary :
    Config.decodeMap (Config.encode { name := "test", version := 0 }) =
      Except.ok { name := "test", version := 0 } ∧
    Config.decodeMap (Config.encode { name := "test", version := 4294967295 }) =
      Except.ok { name := "test", version := 4294967295 } ∧
    ¬ isU32 4294967296 ∧
    decodeU32 (Value.int 4294967296) = none ∧
    decodeU32 (Value.int (-1)) = none ∧
    (∀ (v : Value) (n : Nat), decodeU32 v = some n ↔ representsU32 v n) := by
  refine ⟨rfl, rfl, by decide, rfl, rfl, decodeU32_iff⟩

/-- Counterexample for C6 as stated: on the mapping binding `name` to
the integer 0 and `version` to the integer 1, decoding fails with
`MalformedData`, yet none of the claim's listed conditions holds (no key
is missing and the `version` value is representable). -/
theorem decode_failcond_counterexample :
    Config.decodeMap [("name", Value.int 0), ("version", Value.int 1)] =
      Except.error DecodeError.malformedData ∧
    ¬ claimedFailCond [("name", Value.int 0), ("version", Value.int 1)] := by
  constructor
  · rfl
  · rintro (h | h | ⟨v, hv, hnr⟩)
    · exact absurd h (by simp [lookupKey])
    · exact absurd h (by simp [lookupKey])
    · have hv1 : v = Value.int 1 := by
        simpa [lookupKey] using hv.symm
      subst hv1
      exact hnr ⟨1, rfl, by decide⟩

/-- C6 amended. Decoding a mapping into `Config` fails with
`MalformedData` exactly when the mapping is missing the `name` key or
the `version` key, or the `version` value encodes no unsigned 32-bit
integer, or the `name` value is not a string; the failure is a
recoverable `Except` result, not an abort. -/
theorem decode_malformed_iff (entries : List (String × Value)) :
    Config.decodeMap entries = Except.error DecodeError.malformedData ↔
      (claimedFailCond entries ∨
        ∃ v, lookupKey entries "name" = some v ∧ ∀ s, v ≠ Value.str s) := by
  cases hname : lookupKey entries "name" with
  | none =>
    rw [decodeMap_name_none entries hname]
    exact iff_of_true rfl (Or.inl (Or.inl hname))
  | some v =>
    cases v with
    | int m =>
      rw [decodeMap_name_int entries m hname]
      refine iff_of_true rfl (Or.inr ⟨Value.int m, rfl, ?_⟩)
      intro t h
      exact Value.noConfusion h
    | str s =>
      cases hver : lookupKey entries "version" with
      | none =>
        rw [decodeMap_ver_none entries s hname hver]
        exact iff_of_true rfl (Or.inl (Or.inr (Or.inl hver)))
      | some w =>
        rw [decodeMap_of_lookups entries s w hname hver]
        cases hdec : decodeU32 w with
        | none =>
          refine iff_of_true ?_
            (Or.inl (Or.inr (Or.inr ⟨w, hver, (decodeU32_eq_none_iff w).mp hdec⟩)))
          rfl
        | some ver =>
          refine iff_of_false (by simp) ?_
          rintro ((h | h | ⟨v, hv, hnr⟩) | ⟨v, hv, hns⟩)
          · rw [hname] at h
            exact Option.noConfusion h
          · rw [hver] at h
            exact Option.noConfusion h
          · rw [hver] at hv
            injection hv with hv
            subst hv
            exact hnr ⟨ver, (decodeU32_iff w ver).mp hdec⟩
          · injection hv with hv
            exact hns s hv.symm

/-- C7. The program is deterministic: any two invocations, whatever the
command-line arguments and environment (which are never read), produce
byte-identical standard output and in fact identical effect traces. -/
theorem output_deterministic (args1 : List String) (env1 : List (String × String))
    (args2 : List String) (env2 : List (String × String)) :
    stdoutOf (run args1 env1) = stdoutOf (run args2 env2) ∧
    (run args1 env1).trace = (run args2 env2).trace :=
  ⟨rfl, rfl⟩

/-- C8. Every run has exactly one observable effect, the single line
written to standard output: the error stream stays empty, no filesystem
path is written, and no network activity occurs. -/
theorem effects_frame (args : List String) (env : List (String × String)) :
    (run args env).trace =
      [Effect.writeStdout
        "test rust project: Config \x7b name: \"test\", version: 1 \x7d\n"] ∧
    stderrOf (run args env) = "" ∧
    fsWritesOf (run args env) = [] ∧
    netOpsOf (run args env) = [] :=
  ⟨rfl, rfl, rfl, rfl⟩

/-- C9. The run operation always terminates: from any state the
straight-line execution (construct, format, emit) reaches a terminal
state within 3 steps, and from the initial state it terminates in the
finished state carrying exactly the trace and exit code of `run`. -/
theorem run_terminates :
    (∀ s : MainState, isTerminal (stepN 3 s) = true) ∧
    stepN 3 MainState.start =
      MainState.finished (run [] []).trace (run [] []).exitCode := by
  constructor
  · intro s
    cases s <;> rfl
  · rfl

/-- C10. Decoding succeeds on any mapping whose `name` key holds a
string and whose `version` key holds an integer in the unsigned 32-bit
range, regardless of any additional unknown keys: the decoder never
inspects other keys, so extra keys are ignored rather than rejected. -/
theorem decode_ignores_unknown_keys (entries : List (String × Value))
    (s : String) (n : Nat)
    (hname : lookupKey entries "name" = some (Value.str s))
    (hver : lookupKey entries "version" = some (Value.int (n : Int)))
    (hn : n < 4294967296) :
    Config.decodeMap entries = Except.ok { name := s, version := n } := by
  rw [decodeMap_of_lookups entries s (Value.int (n : Int)) hname hver,
    (decodeU32_iff _ _).mpr ⟨rfl, hn⟩]

/-- Witness for C10 on a mapping carrying two unknown keys around the
two known ones. -/
theorem decode_ignores_unknown_keys_witness :
    lookupKey
        [("extra", Value.int 7), ("name", Value.str "test"),
         ("unknown", Value.str "x"), ("version", Value.int 1)] "name" =
      some (Value.str "test") ∧
    lookupKey
        [("extra", Value.int 7), ("name", Value.str "test"),
         ("unknown", Value.str "x"), ("version", Value.int 1)] "version" =
      some (Value.int ((1 : Nat) : Int)) ∧
    (1 : Nat) < 4294967296 ∧
    Config.decodeMap
        [("extra", Value.int 7), ("name", Value.str "test"),
         ("unknown", Value.str "x"), ("version", Value.int 1)] =
      Except.ok { name := "test", version := 1 } :=
  ⟨rfl, rfl, by decide,
    decode_ignores_unknown_keys _ "test" 1 rfl rfl (by decide)⟩
